import Mathlib

/-!
Shallow embedding of the `DataManager` class (src/unnamed/part_000) of the
DateManagerjs repository, together with proofs about the operations the
specification describes: cache-key generation, the expiring cache, the
retrying fetch wrapper, the cached fetch with cancellation, the derived
`fetchPosts` endpoint, client-side search, and the stats snapshot.

Modelling conventions:
* JavaScript values that flow through these functions (JSON data, object
  fields, parameter values) are modelled by `JVal` (null, booleans,
  integer numbers, strings), with JavaScript truthiness (`truthy`) and
  string coercion (`jsToString`).
* Timestamps (`Date.now()`) are explicit `Int` parameters (`now`).
* The JavaScript `Map` held in `this.cache` is an association list with
  the map's insertion-order semantics (`setEntry` replaces in place or
  appends, `eraseKey` removes).
* The network (`fetch` + `response.json()`) is an oracle
  `Nat → Attempt` giving the outcome of each successive attempt; a
  non-2xx status or a parse failure is a thrown `JsError`, an abort is a
  `JsError` whose `name` is `"AbortError"`.
* Side effects are made explicit: emitted events (`notifyListeners`),
  waits (`delay`) and aborts (`AbortController.abort`) are recorded in a
  trace of `Event`s, and the mutable fields of the class instance form
  `DMState`.
* The URL built in `fetchData` (lines 101–104) only feeds the opaque
  network call and is not observed by any property below, so it is not
  modelled; the oracle stands for the network's behaviour on it.
-/

/-- A JavaScript value as it flows through the data manager: null,
booleans, (integer) numbers and strings. -/
inductive JVal where
  | vnull
  | vbool (b : Bool)
  | vnum (n : Int)
  | vstr (s : String)
deriving DecidableEq, Repr

/-- JavaScript truthiness of a `JVal`. -/
def truthy : JVal → Bool
  | .vnull => false
  | .vbool b => b
  | .vnum n => n != 0
  | .vstr s => s != ""

/-- JavaScript string coercion of a `JVal` (template literals, `toString`). -/
def jsToString : JVal → String
  | .vnull => "null"
  | .vbool true => "true"
  | .vbool false => "false"
  | .vnum n => toString n
  | .vstr s => s

/-- A thrown JavaScript error: its `name` and `message`.  An abort
surfaces as an error whose name is `"AbortError"`. -/
structure JsError where
  name : String
  message : String
deriving DecidableEq, Repr

/-- One observable effect of the data manager: an emitted event
(`notifyListeners`), a wait (`delay(ms)`), or an
`AbortController.abort()` call on the controller with the given id. -/
inductive Event where
  | requestStarted
  | requestSuccess
  | requestError (e : JsError)
  | cacheHit
  | cacheUpdated
  | cacheCleared
  | delayed (ms : Nat)
  | abortCalled (id : Nat)
deriving DecidableEq, Repr

/-- The outcome of one network attempt (`fetch` + status check +
`response.json()`): parsed data, or a thrown error. -/
inductive Attempt where
  | success (data : JVal)
  | failure (e : JsError)
deriving DecidableEq, Repr

/-- A cache entry: `{ data, timestamp }` as stored by `setCache`. -/
structure CacheEntry where
  data : JVal
  timestamp : Int
deriving DecidableEq, Repr

/-- The `this.config` record of the constructor. -/
structure Config where
  maxRetries : Nat
  retryDelay : Nat
  cacheExpiry : Int
  debounceDelay : Nat
deriving DecidableEq, Repr

/-- The constructor's defaults: `{ maxRetries: 3, retryDelay: 1000,
cacheExpiry: 5*60*1000, debounceDelay: 300 }`. -/
def defaultConfig : Config :=
  { maxRetries := 3, retryDelay := 1000, cacheExpiry := 5 * 60 * 1000, debounceDelay := 300 }

/-- The mutable fields of a `DataManager` instance that the modelled
operations read or write: the cache map, the request counter, and the
current abort controller (identified by an id drawn from
`nextControllerId`, so that a fresh controller is distinguishable from
the one it supersedes). -/
structure DMState where
  cache : List (String × CacheEntry)
  requestCount : Nat
  abortController : Option Nat
  nextControllerId : Nat
deriving DecidableEq, Repr

namespace DataManager

/-! ### Association-list operations standing for the JavaScript `Map`
and for property access on plain objects -/

/-- `Map.set` / object-key replacement: overwrite in place if the key is
present, append otherwise (JavaScript `Map` keeps first-insertion
order). -/
def setEntry {β : Type} (key : String) (v : β) : List (String × β) → List (String × β)
  | [] => [(key, v)]
  | (k, w) :: rest => if k = key then (k, v) :: rest else (k, w) :: setEntry key v rest

/-- `Map.delete`. -/
def eraseKey {β : Type} (key : String) (l : List (String × β)) : List (String × β) :=
  l.filter (fun p => p.1 ≠ key)

/-- `params[key]` for a key of the object; defaults to `null` (never hit
when `key` is drawn from the object's own keys). -/
def lookupD (params : List (String × JVal)) (k : String) : JVal :=
  (params.lookup k).getD JVal.vnull

/-! ### Cache-key generation (lines 17–23) -/

/-- `Array.prototype.join('&')`. -/
def joinAmp : List String → String
  | [] => ""
  | [x] => x
  | x :: y :: rest => x ++ "&" ++ joinAmp (y :: rest)

/-- Lexicographic comparison of character lists, the order JavaScript's
default `Array.prototype.sort` applies to the rendered key strings. -/
def charListLE : List Char → List Char → Bool
  | [], _ => true
  | _ :: _, [] => false
  | a :: as, b :: bs => if a < b then true else if b < a then false else charListLE as bs

/-- The string order used to sort parameter names. -/
def keyLE (a b : String) : Prop :=
  charListLE a.data b.data = true

instance : DecidableRel keyLE := fun a b => instDecidableEqBool (charListLE a.data b.data) true

/-- `generateCacheKey(endpoint, params)`: sort the parameter names,
render `key=value` pairs joined by `&`, and append after `?` unless the
rendered string is empty. -/
def generateCacheKey (endpoint : String) (params : List (String × JVal)) : String :=
  let sortedKeys := List.insertionSort keyLE (params.map Prod.fst)
  let paramStr := joinAmp (sortedKeys.map (fun k => k ++ "=" ++ jsToString (lookupD params k)))
  if paramStr = "" then endpoint else endpoint ++ "?" ++ paramStr

/-! ### Cache read/write (lines 25–55) -/

/-- `isCacheValid(cacheEntry)`: the entry's age is below the configured
expiry. -/
def isCacheValid (now : Int) (cfg : Config) (e : CacheEntry) : Bool :=
  decide (now - e.timestamp < cfg.cacheExpiry)

/-- `getCache(key)`: the entry's data when present and valid; otherwise
delete the (stale) entry if present and return `null`.  Returns the
value together with the possibly-updated cache map. -/
def getCache (now : Int) (cfg : Config) (cache : List (String × CacheEntry)) (key : String) :
    JVal × List (String × CacheEntry) :=
  match cache.lookup key with
  | some entry =>
    if isCacheValid now cfg entry then (entry.data, cache)
    else (JVal.vnull, eraseKey key cache)
  | none => (JVal.vnull, cache)

/-- `setCache(key, data)`: store `{ data, timestamp: Date.now() }`.  (The
accompanying `cache-updated` event is recorded by the caller's trace.) -/
def setCache (now : Int) (cache : List (String × CacheEntry)) (key : String) (d : JVal) :
    List (String × CacheEntry) :=
  setEntry key { data := d, timestamp := now } cache

/-- `getCacheSize()`: `this.cache.size`. -/
def getCacheSize (cache : List (String × CacheEntry)) : Nat :=
  cache.length

/-! ### Fetch with retry (lines 57–85) -/

instance {ε α : Type} [DecidableEq ε] [DecidableEq α] : DecidableEq (Except ε α) := fun x y =>
  match x, y with
  | .ok a, .ok b =>
    if h : a = b then isTrue (by rw [h]) else isFalse (fun hh => by cases hh; exact h rfl)
  | .error a, .error b =>
    if h : a = b then isTrue (by rw [h]) else isFalse (fun hh => by cases hh; exact h rfl)
  | .ok _, .error _ => isFalse (fun hh => by cases hh)
  | .error _, .ok _ => isFalse (fun hh => by cases hh)

/-- The result of a `fetchWithRetry` call: the value returned or error
thrown, the final value of `this.requestCount`, and the trace of events,
waits and aborts it produced. -/
structure FetchResult where
  result : Except JsError JVal
  requestCount : Nat
  events : List Event
deriving DecidableEq, Repr

/-- `fetchWithRetry(url, options, retries)`.  `oracle i` is the outcome
of the `i`-th network attempt (`attempt` indexes the current one);
`requestCount` is the counter on entry.  Each call increments the
counter and emits `request-started`; on success it emits
`request-success` and returns the data; on an `AbortError` it rethrows
at once; on another failure it waits `retryDelay` and recurses while
`retries > 0`, else emits `request-error` and rethrows. -/
def fetchWithRetry (oracle : Nat → Attempt) (retryDelay : Nat) :
    Nat → Nat → Nat → FetchResult
  | attempt, requestCount, retries =>
    match retries, oracle attempt with
    | _, .success d =>
      { result := .ok d, requestCount := requestCount + 1,
        events := [.requestStarted, .requestSuccess] }
    | 0, .failure e =>
      if e.name = "AbortError" then
        { result := .error e, requestCount := requestCount + 1,
          events := [.requestStarted] }
      else
        { result := .error e, requestCount := requestCount + 1,
          events := [.requestStarted, .requestError e] }
    | r + 1, .failure e =>
      if e.name = "AbortError" then
        { result := .error e, requestCount := requestCount + 1,
          events := [.requestStarted] }
      else
        let rest := fetchWithRetry oracle retryDelay (attempt + 1) (requestCount + 1) r
        { result := rest.result, requestCount := rest.requestCount,
          events := .requestStarted :: .delayed retryDelay :: rest.events }

/-! ### Cached fetch with cancellation (lines 87–122, 193–197) -/

/-- The result of a `fetchData` call: value or error, the instance state
after the call, and the trace. -/
structure FetchDataResult where
  result : Except JsError JVal
  state : DMState
  events : List Event
deriving DecidableEq, Repr

/-- `cancelPendingRequests()`: abort the current controller when there
is one.  Its only observable effect is the recorded abort. -/
def cancelPendingRequests (st : DMState) : List Event :=
  match st.abortController with
  | some id => [.abortCalled id]
  | none => []

/-- The network path of `fetchData` (lines 98–121): cancel any pending
request, install a fresh abort controller, run `fetchWithRetry` with the
configured retry budget, and on success store the result under
`cacheKey` when `useCache` is set (emitting `cache-updated`). -/
def fetchNetwork (oracle : Nat → Attempt) (now : Int) (cfg : Config) (st : DMState)
    (cacheKey : String) (useCache : Bool) : FetchDataResult :=
  let abortEvents := cancelPendingRequests st
  let st2 : DMState :=
    { st with abortController := some st.nextControllerId,
              nextControllerId := st.nextControllerId + 1 }
  let fr := fetchWithRetry oracle cfg.retryDelay 0 st2.requestCount cfg.maxRetries
  let st3 : DMState := { st2 with requestCount := fr.requestCount }
  match fr.result with
  | .ok d =>
    if useCache then
      { result := .ok d, state := { st3 with cache := setCache now st3.cache cacheKey d },
        events := abortEvents ++ fr.events ++ [.cacheUpdated] }
    else
      { result := .ok d, state := st3, events := abortEvents ++ fr.events }
  | .error e =>
    { result := .error e, state := st3, events := abortEvents ++ fr.events }

/-- `fetchData(endpoint, params, useCache)`: compute the cache key; when
`useCache` is set and `getCache` yields a truthy value, emit `cache-hit`
and return it; otherwise take the network path (on the cache even when
`getCache` evicted a stale entry). -/
def fetchData (oracle : Nat → Attempt) (now : Int) (cfg : Config) (st : DMState)
    (endpoint : String) (params : List (String × JVal)) (useCache : Bool) : FetchDataResult :=
  let cacheKey := generateCacheKey endpoint params
  if useCache then
    let r := getCache now cfg st.cache cacheKey
    if truthy r.1 then
      { result := .ok r.1, state := { st with cache := r.2 }, events := [.cacheHit] }
    else
      fetchNetwork oracle now cfg { st with cache := r.2 } cacheKey useCache
  else
    fetchNetwork oracle now cfg st cacheKey useCache

/-! ### Derived endpoint (lines 124–127) -/

/-- The parameter object `{ _start: start, _limit: limit }` that
`fetchPosts` builds, with `start = (page - 1) * limit`. -/
def fetchPostsParams (page limit : Int) : List (String × JVal) :=
  [("_start", JVal.vnum ((page - 1) * limit)), ("_limit", JVal.vnum limit)]

/-- `fetchPosts(page, limit)`: delegate to
`fetchData('/posts', { _start: (page-1)*limit, _limit: limit })`. -/
def fetchPosts (oracle : Nat → Attempt) (now : Int) (cfg : Config) (st : DMState)
    (page limit : Int) : FetchDataResult :=
  fetchData oracle now cfg st "/posts" (fetchPostsParams page limit) true

/-! ### Search (lines 166–184) -/

/-- An item of the searched collection: a plain object, its fields an
association list (an absent field reads as `undefined`, which is falsy). -/
abbrev Item : Type := List (String × JVal)

/-- `q` is a contiguous run at the front of `s` (character lists). -/
def charsLead : List Char → List Char → Bool
  | [], _ => true
  | _ :: _, [] => false
  | a :: as, b :: bs => a = b && charsLead as bs

/-- `q` occurs contiguously somewhere in `s` (character lists). -/
def charsContain (s q : List Char) : Bool :=
  match s with
  | [] => q.isEmpty
  | _ :: tl => charsLead q s || charsContain tl q

/-- `String.prototype.includes`. -/
def strIncludes (s q : String) : Bool :=
  charsContain s.data q.data

/-- `String.prototype.toLowerCase`. -/
def sLower (s : String) : String :=
  String.mk (s.data.map Char.toLower)

/-- Drop leading whitespace from a character list. -/
def dropLeadingWS : List Char → List Char
  | [] => []
  | c :: cs => if c.isWhitespace then dropLeadingWS cs else c :: cs

/-- `String.prototype.trim`: strip whitespace from both ends. -/
def jsTrim (s : String) : String :=
  String.mk (List.reverse (dropLeadingWS (List.reverse (dropLeadingWS s.data))))

/-- The per-item test of `searchData`'s filter: some field's value is
truthy and its text, lowercased, contains the lowercased query. -/
def searchMatch (lowercaseQuery : String) (fields : List String) (item : Item) : Bool :=
  fields.any (fun field =>
    match (List.lookup field item : Option JVal) with
    | none => false
    | some v => truthy v && strIncludes (sLower (jsToString v)) lowercaseQuery)

/-- `searchData(data, query, fields)` (the resolved value of the promise
it returns): the input unchanged when the query trims to empty, else the
items passing `searchMatch` for the lowercased query. -/
def searchData (data : List Item) (query : String) (fields : List String) : List Item :=
  if jsTrim query = "" then data
  else data.filter (searchMatch (sLower query) fields)

/-! ### Stats snapshot (lines 225–231) -/

/-- A value of the stats object: a number or the array of cache keys. -/
inductive StatVal where
  | num (n : Nat)
  | strList (l : List String)
deriving DecidableEq, Repr

/-- `getStats()`: the object
`{ cacheSize: this.getCacheSize(), requestCount: this.requestCount,
cachedItems: Array.from(this.cache.keys()) }`, modelled as the
association list of its fields in declaration order. -/
def getStats (st : DMState) : List (String × StatVal) :=
  [("cacheSize", StatVal.num (getCacheSize st.cache)),
   ("requestCount", StatVal.num st.requestCount),
   ("cachedItems", StatVal.strList (st.cache.map Prod.fst))]

/-- Classifies the events that `fetchWithRetry` itself can produce
(request lifecycle and retry waits), as opposed to cache and abort
events produced by its callers. -/
def netEvent : Event → Bool
  | .requestStarted => true
  | .requestSuccess => true
  | .requestError _ => true
  | .delayed _ => true
  | _ => false

/-! ### Lemmas about association-list lookup -/

theorem lookup_eq_none_iff {β : Type} {l : List (String × β)} {k : String} :
    List.lookup k l = none ↔ k ∉ l.map Prod.fst := by
  induction l with
  | nil => simp
  | cons p rest ih =>
    obtain ⟨a, b⟩ := p
    by_cases h : k = a
    · subst h
      simp [List.lookup]
    · have hb : (k == a) = false := beq_eq_false_iff_ne.mpr h
      simp [List.lookup, hb, h, ih]

theorem mem_of_lookup_eq_some {β : Type} {l : List (String × β)} {k : String} {v : β}
    (h : List.lookup k l = some v) : (k, v) ∈ l := by
  induction l with
  | nil => simp [List.lookup] at h
  | cons p rest ih =>
    obtain ⟨a, b⟩ := p
    by_cases hk : k = a
    · subst hk
      simp [List.lookup] at h
      simp [h]
    · have hb : (k == a) = false := beq_eq_false_iff_ne.mpr hk
      simp [List.lookup, hb] at h
      exact List.mem_cons_of_mem _ (ih h)

theorem lookup_eq_some_of_mem {β : Type} {l : List (String × β)}
    (nd : (l.map Prod.fst).Nodup) {k : String} {v : β} (h : (k, v) ∈ l) :
    List.lookup k l = some v := by
  induction l with
  | nil => simp at h
  | cons p rest ih =>
    obtain ⟨a, b⟩ := p
    simp only [List.map_cons, List.nodup_cons] at nd
    rcases List.mem_cons.mp h with heq | hmem
    · cases heq
      simp [List.lookup]
    · have hk : k ≠ a := by
        intro hka
        subst hka
        exact nd.1 (List.mem_map.mpr ⟨(k, v), hmem, rfl⟩)
      have hb : (k == a) = false := beq_eq_false_iff_ne.mpr hk
      simp [List.lookup, hb, ih nd.2 hmem]

theorem lookup_congr_perm {β : Type} {l₁ l₂ : List (String × β)} (hp : l₁.Perm l₂)
    (nd : (l₁.map Prod.fst).Nodup) (k : String) :
    List.lookup k l₁ = List.lookup k l₂ := by
  have nd₂ : (l₂.map Prod.fst).Nodup := ((hp.map Prod.fst).nodup_iff).mp nd
  cases h₁ : List.lookup k l₁ with
  | some v =>
    exact (lookup_eq_some_of_mem nd₂ (hp.mem_iff.mp (mem_of_lookup_eq_some h₁))).symm
  | none =>
    cases h₂ : List.lookup k l₂ with
    | none => rfl
    | some v =>
      exact absurd (hp.mem_iff.mpr (mem_of_lookup_eq_some h₂))
        (fun hm => (lookup_eq_none_iff.mp h₁) (List.mem_map.mpr ⟨(k, v), hm, rfl⟩))

theorem lookup_eraseKey {β : Type} (k : String) (l : List (String × β)) :
    List.lookup k (eraseKey k l) = none := by
  refine lookup_eq_none_iff.mpr ?_
  intro hmem
  rcases List.mem_map.mp hmem with ⟨p, hp, hfst⟩
  rcases List.mem_filter.mp hp with ⟨_, hne⟩
  rw [hfst] at hne
  simp at hne

theorem lookup_setEntry {β : Type} (k : String) (v : β) (l : List (String × β)) :
    List.lookup k (setEntry k v l) = some v := by
  induction l with
  | nil => simp [setEntry, List.lookup]
  | cons p rest ih =>
    obtain ⟨a, b⟩ := p
    by_cases h : a = k
    · subst h
      simp [setEntry, List.lookup]
    · have h' : k ≠ a := fun hk => h hk.symm
      have hb : (k == a) = false := beq_eq_false_iff_ne.mpr h'
      simp [setEntry, h, List.lookup, hb, ih]

/-! ### The key order is a linear order, so sorting is canonical -/

theorem charListLE_total : ∀ as bs : List Char, charListLE as bs = true ∨ charListLE bs as = true
  | [], _ => Or.inl rfl
  | _ :: _, [] => Or.inr rfl
  | a :: as, b :: bs => by
    rcases lt_trichotomy a b with h | h | h
    · left
      simp [charListLE, h]
    · subst h
      rcases charListLE_total as bs with ih | ih
      · left
        simp [charListLE, lt_irrefl, ih]
      · right
        simp [charListLE, lt_irrefl, ih]
    · right
      simp [charListLE, h]

theorem charListLE_antisymm : ∀ as bs : List Char,
    charListLE as bs = true → charListLE bs as = true → as = bs
  | [], [], _, _ => rfl
  | [], _ :: _, _, h₂ => by simp [charListLE] at h₂
  | _ :: _, [], h₁, _ => by simp [charListLE] at h₁
  | a :: as, b :: bs, h₁, h₂ => by
    rcases lt_trichotomy a b with h | h | h
    · simp [charListLE, h, lt_asymm h] at h₂
    · subst h
      simp only [charListLE, lt_irrefl, if_false] at h₁ h₂
      rw [charListLE_antisymm as bs h₁ h₂]
    · simp [charListLE, h, lt_asymm h] at h₁

theorem charListLE_trans : ∀ as bs cs : List Char,
    charListLE as bs = true → charListLE bs cs = true → charListLE as cs = true
  | [], _, _, _, _ => rfl
  | _ :: _, [], _, h₁, _ => by simp [charListLE] at h₁
  | _ :: _, _ :: _, [], _, h₂ => by simp [charListLE] at h₂
  | a :: as, b :: bs, c :: cs, h₁, h₂ => by
    rcases lt_trichotomy a b with hab | hab | hab
    · rcases lt_trichotomy b c with hbc | hbc | hbc
      · simp [charListLE, lt_trans hab hbc]
      · subst hbc
        simp [charListLE, hab]
      · simp [charListLE, hbc, lt_asymm hbc] at h₂
    · subst hab
      rcases lt_trichotomy a c with hac | hac | hac
      · simp [charListLE, hac]
      · subst hac
        simp only [charListLE, lt_irrefl, if_false] at h₁ h₂ ⊢
        exact charListLE_trans as bs cs h₁ h₂
      · simp [charListLE, hac, lt_asymm hac] at h₂
    · simp [charListLE, hab, lt_asymm hab] at h₁

instance : IsTotal String keyLE :=
  ⟨fun a b => charListLE_total a.data b.data⟩

instance : IsTrans String keyLE :=
  ⟨fun a b c => charListLE_trans a.data b.data c.data⟩

instance : IsAntisymm String keyLE :=
  ⟨fun a b h₁ h₂ => by
    cases a
    cases b
    exact congrArg String.mk (charListLE_antisymm _ _ h₁ h₂)⟩

/-! ### `joinAmp` facts -/

theorem joinAmp_length_head : ∀ (x : String) (xs : List String),
    x.length ≤ (joinAmp (x :: xs)).length
  | _, [] => le_refl _
  | x, y :: rest => by
    simp only [joinAmp, String.length_append]
    omega

theorem joinAmp_pairs_ne_empty (k v : String) (xs : List String) :
    joinAmp ((k ++ "=" ++ v) :: xs) ≠ "" := by
  intro h
  have hlen := joinAmp_length_head (k ++ "=" ++ v) xs
  rw [h] at hlen
  simp only [String.length_append] at hlen
  have : ("=" : String).length = 1 := rfl
  have : ("" : String).length = 0 := rfl
  omega

/-! ### `fetchWithRetry` lemmas -/

theorem fetchWithRetry_events_net (oracle : Nat → Attempt) (retryDelay : Nat) :
    ∀ retries attempt requestCount,
      ∀ ev ∈ (fetchWithRetry oracle retryDelay attempt requestCount retries).events,
        netEvent ev = true := by
  intro retries
  induction retries with
  | zero =>
    intro attempt requestCount ev hev
    cases h : oracle attempt with
    | success d =>
      simp [fetchWithRetry, h] at hev
      rcases hev with hev | hev <;> simp [hev, netEvent]
    | failure e =>
      by_cases hn : e.name = "AbortError" <;>
        simp [fetchWithRetry, h, hn] at hev
      · simp [hev, netEvent]
      · rcases hev with hev | hev <;> simp [hev, netEvent]
  | succ r ih =>
    intro attempt requestCount ev hev
    cases h : oracle attempt with
    | success d =>
      simp [fetchWithRetry, h] at hev
      rcases hev with hev | hev <;> simp [hev, netEvent]
    | failure e =>
      by_cases hn : e.name = "AbortError" <;>
        simp [fetchWithRetry, h, hn] at hev
      · simp [hev, netEvent]
      · rcases hev with hev | hev | hev
        · simp [hev, netEvent]
        · simp [hev, netEvent]
        · exact ih (attempt + 1) (requestCount + 1) ev hev

theorem fetchWithRetry_events_cons (oracle : Nat → Attempt)
    (retryDelay attempt requestCount retries : Nat) :
    ∃ tl, (fetchWithRetry oracle retryDelay attempt requestCount retries).events =
      Event.requestStarted :: tl := by
  cases retries with
  | zero =>
    cases h : oracle attempt with
    | success d => exact ⟨[Event.requestSuccess], by simp [fetchWithRetry, h]⟩
    | failure e =>
      by_cases hn : e.name = "AbortError"
      · exact ⟨[], by simp [fetchWithRetry, h, hn]⟩
      · exact ⟨[Event.requestError e], by simp [fetchWithRetry, h, hn]⟩
  | succ r =>
    cases h : oracle attempt with
    | success d => exact ⟨[Event.requestSuccess], by simp [fetchWithRetry, h]⟩
    | failure e =>
      by_cases hn : e.name = "AbortError"
      · exact ⟨[], by simp [fetchWithRetry, h, hn]⟩
      · exact ⟨Event.delayed retryDelay ::
          (fetchWithRetry oracle retryDelay (attempt + 1) (requestCount + 1) r).events,
          by simp [fetchWithRetry, h, hn]⟩

theorem fetchWithRetry_abort_eq (oracle : Nat → Attempt)
    (retryDelay attempt requestCount retries : Nat) (e : JsError)
    (h : oracle attempt = .failure e) (hn : e.name = "AbortError") :
    fetchWithRetry oracle retryDelay attempt requestCount retries =
      { result := .error e, requestCount := requestCount + 1,
        events := [Event.requestStarted] } := by
  cases retries <;> simp [fetchWithRetry, h, hn]

theorem fetchWithRetry_allFail (oracle : Nat → Attempt) (retryDelay : Nat)
    (h : ∀ i, ∃ e, oracle i = .failure e ∧ e.name ≠ "AbortError") :
    ∀ retries attempt requestCount,
      (fetchWithRetry oracle retryDelay attempt requestCount retries).events.count
          Event.requestStarted = retries + 1
      ∧ (fetchWithRetry oracle retryDelay attempt requestCount retries).requestCount =
          requestCount + retries + 1
      ∧ ∃ e, oracle (attempt + retries) = .failure e
          ∧ (fetchWithRetry oracle retryDelay attempt requestCount retries).result =
              .error e := by
  intro retries
  induction retries with
  | zero =>
    intro attempt requestCount
    obtain ⟨e, he, hn⟩ := h attempt
    refine ⟨?_, ?_, e, by simpa using he, ?_⟩ <;> simp [fetchWithRetry, he, hn]
  | succ r ih =>
    intro attempt requestCount
    obtain ⟨e, he, hn⟩ := h attempt
    obtain ⟨ihcount, ihrc, e', he', hres⟩ := ih (attempt + 1) (requestCount + 1)
    refine ⟨?_, ?_, e', ?_, ?_⟩
    · simp [fetchWithRetry, he, hn, ihcount]
    · simp [fetchWithRetry, he, hn, ihrc]
      omega
    · have : attempt + 1 + r = attempt + (r + 1) := by omega
      rw [← this]
      exact he'
    · simp [fetchWithRetry, he, hn, hres]

/-! ### `fetchData` path lemmas -/

theorem getCache_not_truthy (now : Int) (cfg : Config) (cache : List (String × CacheEntry))
    (key : String)
    (h : ∀ e, List.lookup key cache = some e → isCacheValid now cfg e = true →
      truthy e.data = false) :
    truthy (getCache now cfg cache key).1 = false := by
  unfold getCache
  cases hl : List.lookup key cache with
  | none => simp [truthy]
  | some e =>
    cases hv : isCacheValid now cfg e with
    | true =>
      simp only [hv, if_true]
      exact h e hl hv
    | false => simp [hv, truthy]

theorem fetchData_hit_eq (oracle : Nat → Attempt) (now : Int) (cfg : Config) (st : DMState)
    (endpoint : String) (params : List (String × JVal)) (e : CacheEntry)
    (hl : List.lookup (generateCacheKey endpoint params) st.cache = some e)
    (hv : isCacheValid now cfg e = true)
    (ht : truthy e.data = true) :
    fetchData oracle now cfg st endpoint params true =
      { result := .ok e.data, state := st, events := [Event.cacheHit] } := by
  simp [fetchData, getCache, hl, hv, ht]

theorem fetchData_miss_eq (oracle : Nat → Attempt) (now : Int) (cfg : Config) (st : DMState)
    (endpoint : String) (params : List (String × JVal))
    (hmiss : truthy (getCache now cfg st.cache (generateCacheKey endpoint params)).1 = false) :
    fetchData oracle now cfg st endpoint params true =
      fetchNetwork oracle now cfg
        { st with cache := (getCache now cfg st.cache (generateCacheKey endpoint params)).2 }
        (generateCacheKey endpoint params) true := by
  simp [fetchData, hmiss]

theorem fetchNetwork_state_abort (oracle : Nat → Attempt) (now : Int) (cfg : Config)
    (st : DMState) (key : String) (u : Bool) :
    (fetchNetwork oracle now cfg st key u).state.abortController = some st.nextControllerId := by
  cases hr : (fetchWithRetry oracle cfg.retryDelay 0 st.requestCount cfg.maxRetries).result with
  | ok d => cases u <;> simp [fetchNetwork, hr]
  | error e => simp [fetchNetwork, hr]

theorem fetchNetwork_events (oracle : Nat → Attempt) (now : Int) (cfg : Config)
    (st : DMState) (key : String) (u : Bool) :
    ∃ rest, (fetchNetwork oracle now cfg st key u).events = cancelPendingRequests st ++ rest
      ∧ rest.head? = some Event.requestStarted
      ∧ (∀ id, Event.abortCalled id ∉ rest)
      ∧ Event.cacheHit ∉ rest := by
  obtain ⟨tl, htl⟩ := fetchWithRetry_events_cons oracle cfg.retryDelay 0 st.requestCount
    cfg.maxRetries
  have hnet := fetchWithRetry_events_net oracle cfg.retryDelay cfg.maxRetries 0 st.requestCount
  have habort : ∀ id,
      Event.abortCalled id ∉
        (fetchWithRetry oracle cfg.retryDelay 0 st.requestCount cfg.maxRetries).events := by
    intro id hin
    have := hnet _ hin
    simp [netEvent] at this
  have hhit :
      Event.cacheHit ∉
        (fetchWithRetry oracle cfg.retryDelay 0 st.requestCount cfg.maxRetries).events := by
    intro hin
    have := hnet _ hin
    simp [netEvent] at this
  cases hr : (fetchWithRetry oracle cfg.retryDelay 0 st.requestCount cfg.maxRetries).result with
  | ok d =>
    cases u with
    | false =>
      refine ⟨(fetchWithRetry oracle cfg.retryDelay 0 st.requestCount cfg.maxRetries).events,
        by simp [fetchNetwork, hr], by simp [htl], habort, hhit⟩
    | true =>
      refine ⟨(fetchWithRetry oracle cfg.retryDelay 0 st.requestCount cfg.maxRetries).events ++
          [Event.cacheUpdated], by simp [fetchNetwork, hr], by simp [htl], ?_, ?_⟩
      · intro id hin
        rcases List.mem_append.mp hin with hin | hin
        · exact habort id hin
        · simp at hin
      · intro hin
        rcases List.mem_append.mp hin with hin | hin
        · exact hhit hin
        · simp at hin
  | error e =>
    refine ⟨(fetchWithRetry oracle cfg.retryDelay 0 st.requestCount cfg.maxRetries).events,
      by simp [fetchNetwork, hr], by simp [htl], habort, hhit⟩

theorem fetchNetwork_congr (oracle : Nat → Attempt) (now : Int) (cfg : Config)
    (st₁ st₂ : DMState) (key : String) (u : Bool)
    (hab : st₁.abortController = st₂.abortController)
    (hid : st₁.nextControllerId = st₂.nextControllerId)
    (hrc : st₁.requestCount = st₂.requestCount) :
    (fetchNetwork oracle now cfg st₁ key u).result = (fetchNetwork oracle now cfg st₂ key u).result
    ∧ (fetchNetwork oracle now cfg st₁ key u).events =
        (fetchNetwork oracle now cfg st₂ key u).events
    ∧ (fetchNetwork oracle now cfg st₁ key u).state.requestCount =
        (fetchNetwork oracle now cfg st₂ key u).state.requestCount := by
  unfold fetchNetwork cancelPendingRequests
  rw [hab, hid, hrc]
  cases hr : (fetchWithRetry oracle cfg.retryDelay 0 st₂.requestCount cfg.maxRetries).result <;>
    cases u <;> simp [hr]

theorem fetchNetwork_ok_cache (oracle : Nat → Attempt) (now : Int) (cfg : Config)
    (st : DMState) (key : String) (d : JVal)
    (h : (fetchNetwork oracle now cfg st key true).result = .ok d) :
    (fetchNetwork oracle now cfg st key true).state.cache = setCache now st.cache key d := by
  cases hr : (fetchWithRetry oracle cfg.retryDelay 0 st.requestCount cfg.maxRetries).result with
  | ok d' =>
    simp [fetchNetwork, hr] at h
    simp [fetchNetwork, hr, h]
  | error e => simp [fetchNetwork, hr] at h

theorem getCache_truthy_cases (now : Int) (cfg : Config) (cache : List (String × CacheEntry))
    (key : String) (h : truthy (getCache now cfg cache key).1 = true) :
    ∃ e, List.lookup key cache = some e ∧ isCacheValid now cfg e = true
      ∧ getCache now cfg cache key = (e.data, cache) := by
  unfold getCache at h ⊢
  cases hl : List.lookup key cache with
  | none => rw [hl] at h; simp [truthy] at h
  | some e =>
    cases hv : isCacheValid now cfg e with
    | true => exact ⟨e, rfl, hv, by simp [hv]⟩
    | false => simp [hl, hv, truthy] at h

theorem cacheHit_not_mem_cancel (st : DMState) : Event.cacheHit ∉ cancelPendingRequests st := by
  unfold cancelPendingRequests
  cases st.abortController <;> simp

theorem searchMatch_iff (lq : String) (fields : List String) (item : Item) :
    searchMatch lq fields item = true ↔
      ∃ f ∈ fields, ∃ v, List.lookup f item = some v ∧ truthy v = true
        ∧ strIncludes (sLower (jsToString v)) lq = true := by
  unfold searchMatch
  rw [List.any_eq_true]
  constructor
  · rintro ⟨f, hf, hp⟩
    cases hl : List.lookup f item with
    | none => rw [hl] at hp; simp at hp
    | some v =>
      rw [hl] at hp
      simp only [Bool.and_eq_true] at hp
      exact ⟨f, hf, v, hl, hp.1, hp.2⟩
  · rintro ⟨f, hf, v, hl, ht, hs⟩
    exact ⟨f, hf, by simp [hl, ht, hs]⟩

/-! ### Claim theorems -/

/-- **C1.** For every retry budget `r ≥ 0`, if every network attempt
fails with a non-cancellation error, `fetchWithRetry` performs exactly
`r + 1` attempts (one `request-started` per attempt), increments the
request counter by exactly `r + 1`, and propagates the final (last
attempt's) failure.  Instantiating `r := 2` gives exactly 3 attempts and
`r := 0` exactly 1. -/
theorem claim_C1_fetchWithRetry_allFail (oracle : Nat → Attempt)
    (retryDelay requestCount r : Nat)
    (h : ∀ i, ∃ e, oracle i = .failure e ∧ e.name ≠ "AbortError") :
    (fetchWithRetry oracle retryDelay 0 requestCount r).events.count Event.requestStarted = r + 1
    ∧ (fetchWithRetry oracle retryDelay 0 requestCount r).requestCount = requestCount + (r + 1)
    ∧ ∃ e, oracle r = .failure e
        ∧ (fetchWithRetry oracle retryDelay 0 requestCount r).result = .error e := by
  obtain ⟨hc, hrc, e, he, hres⟩ := fetchWithRetry_allFail oracle retryDelay h r 0 requestCount
  refine ⟨hc, by omega, e, ?_, hres⟩
  simpa using he

/-- Witness for C1: a network that always fails with `TypeError`, run
with budgets 2 and 0, gives 3 and 1 attempts respectively. -/
theorem claim_C1_witness :
    ((fetchWithRetry (fun _ => Attempt.failure ⟨"TypeError", "failed"⟩) 1000 0 5 2).events.count
        Event.requestStarted = 2 + 1
      ∧ (fetchWithRetry (fun _ => Attempt.failure ⟨"TypeError", "failed"⟩) 1000 0 5 2).requestCount
          = 5 + (2 + 1)
      ∧ ∃ e, (fun _ : Nat => Attempt.failure ⟨"TypeError", "failed"⟩) 2 = .failure e
          ∧ (fetchWithRetry (fun _ => Attempt.failure ⟨"TypeError", "failed"⟩) 1000 0 5 2).result
              = .error e)
    ∧ ((fetchWithRetry (fun _ => Attempt.failure ⟨"TypeError", "failed"⟩) 1000 0 5 0).events.count
        Event.requestStarted = 0 + 1
      ∧ (fetchWithRetry (fun _ => Attempt.failure ⟨"TypeError", "failed"⟩) 1000 0 5 0).requestCount
          = 5 + (0 + 1)
      ∧ ∃ e, (fun _ : Nat => Attempt.failure ⟨"TypeError", "failed"⟩) 0 = .failure e
          ∧ (fetchWithRetry (fun _ => Attempt.failure ⟨"TypeError", "failed"⟩) 1000 0 5 0).result
              = .error e) :=
  ⟨claim_C1_fetchWithRetry_allFail _ 1000 5 2
      (fun _ => ⟨⟨"TypeError", "failed"⟩, rfl, by decide⟩),
    claim_C1_fetchWithRetry_allFail _ 1000 5 0
      (fun _ => ⟨⟨"TypeError", "failed"⟩, rfl, by decide⟩)⟩

/-- **C2.** `getCache` never returns data of an entry whose age reaches
`cacheExpiry`: an absent key is a miss that leaves the cache unchanged;
a fresh entry's data is returned with the cache unchanged; a stale entry
is deleted and the read is a miss, so a subsequent lookup of the key
finds nothing. -/
theorem claim_C2_getCache_spec (now : Int) (cfg : Config)
    (cache : List (String × CacheEntry)) (key : String) :
    (List.lookup key cache = none → getCache now cfg cache key = (JVal.vnull, cache))
    ∧ ∀ e, List.lookup key cache = some e →
        (now - e.timestamp < cfg.cacheExpiry → getCache now cfg cache key = (e.data, cache))
        ∧ (cfg.cacheExpiry ≤ now - e.timestamp →
            getCache now cfg cache key = (JVal.vnull, eraseKey key cache)
            ∧ List.lookup key (eraseKey key cache) = none) := by
  refine ⟨fun h => by simp [getCache, h], fun e hl => ⟨fun hfresh => ?_, fun hstale => ?_⟩⟩
  · have hv : isCacheValid now cfg e = true := by
      simp [isCacheValid, hfresh]
    simp [getCache, hl, hv]
  · have hv : isCacheValid now cfg e = false := by
      simp only [isCacheValid, decide_eq_false_iff_not, not_lt]
      omega
    simp [getCache, hl, hv, lookup_eraseKey]

/-- Witness for C2: with the default 5-minute expiry, an entry written
at time 0 and read at time 300000 is evicted and the read misses. -/
theorem claim_C2_witness :
    getCache 300000 defaultConfig [("k", ⟨JVal.vstr "x", 0⟩)] "k" =
      (JVal.vnull, eraseKey "k" [("k", ⟨JVal.vstr "x", 0⟩)])
    ∧ List.lookup "k" (eraseKey "k" [("k", (⟨JVal.vstr "x", 0⟩ : CacheEntry))]) = none :=
  ((claim_C2_getCache_spec 300000 defaultConfig [("k", ⟨JVal.vstr "x", 0⟩)] "k").2
    (⟨JVal.vstr "x", 0⟩ : CacheEntry) (by decide)).2 (by decide)

/-- **C3.** An attempt that fails with an `AbortError` is propagated
immediately: whatever the remaining retry budget, there is exactly one
attempt, no retry wait (`delayed`), and no `request-error` event. -/
theorem claim_C3_abort_immediate (oracle : Nat → Attempt)
    (retryDelay attempt requestCount retries : Nat) (e : JsError)
    (h : oracle attempt = .failure e) (hn : e.name = "AbortError") :
    fetchWithRetry oracle retryDelay attempt requestCount retries =
      { result := .error e, requestCount := requestCount + 1,
        events := [Event.requestStarted] }
    ∧ (∀ e', Event.requestError e' ∉
        (fetchWithRetry oracle retryDelay attempt requestCount retries).events)
    ∧ (∀ ms, Event.delayed ms ∉
        (fetchWithRetry oracle retryDelay attempt requestCount retries).events)
    ∧ (fetchWithRetry oracle retryDelay attempt requestCount retries).events.count
        Event.requestStarted = 1 := by
  have heq := fetchWithRetry_abort_eq oracle retryDelay attempt requestCount retries e h hn
  refine ⟨heq, ?_, ?_, ?_⟩ <;> simp [heq]

/-- Witness for C3: an aborted attempt with 5 retries left still makes
only the one attempt and rethrows the `AbortError`. -/
theorem claim_C3_witness :
    fetchWithRetry (fun _ => Attempt.failure ⟨"AbortError", "canceled"⟩) 1000 0 7 5 =
      { result := .error ⟨"AbortError", "canceled"⟩, requestCount := 7 + 1,
        events := [Event.requestStarted] } :=
  (claim_C3_abort_immediate (fun _ => Attempt.failure ⟨"AbortError", "canceled"⟩) 1000 0 7 5
    ⟨"AbortError", "canceled"⟩ rfl rfl).1

/-- **C4.** `generateCacheKey` is a pure function of the parameter map:
reordering the parameters (a permutation of a duplicate-free object)
gives the same key; the key is the endpoint alone for an empty map, and
otherwise the endpoint, `?`, and the sorted `key=value` pairs joined by
`&`. -/
theorem claim_C4_generateCacheKey (endpoint : String) (p₁ p₂ : List (String × JVal))
    (hperm : p₁.Perm p₂) (hnd : (p₁.map Prod.fst).Nodup) :
    generateCacheKey endpoint p₁ = generateCacheKey endpoint p₂
    ∧ generateCacheKey endpoint [] = endpoint
    ∧ (p₁ ≠ [] →
        generateCacheKey endpoint p₁ =
          endpoint ++ "?" ++
            joinAmp ((List.insertionSort keyLE (p₁.map Prod.fst)).map
              (fun k => k ++ "=" ++ jsToString (lookupD p₁ k)))) := by
  have hkeys : List.insertionSort keyLE (p₁.map Prod.fst) =
      List.insertionSort keyLE (p₂.map Prod.fst) :=
    List.eq_of_perm_of_sorted
      ((List.perm_insertionSort keyLE _).trans
        ((hperm.map Prod.fst).trans (List.perm_insertionSort keyLE _).symm))
      (List.sorted_insertionSort keyLE _) (List.sorted_insertionSort keyLE _)
  have hfun : (fun k => k ++ "=" ++ jsToString (lookupD p₁ k)) =
      (fun k => k ++ "=" ++ jsToString (lookupD p₂ k)) :=
    funext fun k => by rw [lookupD, lookupD, lookup_congr_perm hperm hnd k]
  refine ⟨?_, rfl, ?_⟩
  · unfold generateCacheKey
    rw [hkeys, hfun]
  · intro hne
    obtain ⟨k0, ks, hk⟩ : ∃ k0 ks, List.insertionSort keyLE (p₁.map Prod.fst) = k0 :: ks := by
      cases hsk : List.insertionSort keyLE (p₁.map Prod.fst) with
      | nil =>
        have hlen := (List.perm_insertionSort keyLE (p₁.map Prod.fst)).length_eq
        rw [hsk] at hlen
        cases p₁ with
        | nil => exact absurd rfl hne
        | cons q qs => simp at hlen
      | cons a b => exact ⟨a, b, rfl⟩
    simp only [generateCacheKey, hk, List.map_cons]
    rw [if_neg (joinAmp_pairs_ne_empty k0 (jsToString (lookupD p₁ k0)) _)]

/-- Witness for C4: `{b: 2, a: 1}` and `{a: 1, b: 2}` give the same key
for endpoint `/e`. -/
theorem claim_C4_witness :
    generateCacheKey "/e" [("b", JVal.vnum 2), ("a", JVal.vnum 1)] =
      generateCacheKey "/e" [("a", JVal.vnum 1), ("b", JVal.vnum 2)] :=
  (claim_C4_generateCacheKey "/e" [("b", JVal.vnum 2), ("a", JVal.vnum 1)]
    [("a", JVal.vnum 1), ("b", JVal.vnum 2)]
    (List.Perm.swap ("a", JVal.vnum 1) ("b", JVal.vnum 2) [])
    (by decide)).1

/-- **C5 (amended).** When the cache holds a valid entry with truthy
data under the computed key, `fetchData` with `useCache` emits
`cache-hit`, returns the cached value, performs no network attempt and
leaves the whole state (in particular `requestCount`) unchanged.
Moreover, after any `fetchData` success whose value is truthy, the value
sits in the cache under the key with the current timestamp, so a second
fetch for the same endpoint and parameters while that entry is still
valid returns it from cache with only a `cache-hit`. -/
theorem claim_C5_cacheHit (oracle oracleNext : Nat → Attempt) (now : Int) (cfg : Config)
    (st : DMState) (endpoint : String) (params : List (String × JVal)) :
    (∀ e, List.lookup (generateCacheKey endpoint params) st.cache = some e →
        isCacheValid now cfg e = true → truthy e.data = true →
      fetchData oracle now cfg st endpoint params true =
        { result := .ok e.data, state := st, events := [Event.cacheHit] })
    ∧ ∀ d, (fetchData oracle now cfg st endpoint params true).result = .ok d →
        truthy d = true →
        ∃ en, List.lookup (generateCacheKey endpoint params)
              (fetchData oracle now cfg st endpoint params true).state.cache = some en
          ∧ en.data = d
          ∧ ∀ now', isCacheValid now' cfg en = true →
              fetchData oracleNext now' cfg
                  (fetchData oracle now cfg st endpoint params true).state endpoint params true =
                { result := .ok d,
                  state := (fetchData oracle now cfg st endpoint params true).state,
                  events := [Event.cacheHit] } := by
  constructor
  · intro e hl hv ht
    exact fetchData_hit_eq oracle now cfg st endpoint params e hl hv ht
  · intro d hres ht
    by_cases hhit : truthy (getCache now cfg st.cache (generateCacheKey endpoint params)).1 = true
    · obtain ⟨e, hl, hv, hget⟩ := getCache_truthy_cases now cfg st.cache _ hhit
      have htr : truthy e.data = true := by
        rw [hget] at hhit
        exact hhit
      have heq := fetchData_hit_eq oracle now cfg st endpoint params e hl hv htr
      have hd : e.data = d := by
        rw [heq] at hres
        exact Except.ok.inj hres
      refine ⟨e, ?_, hd, ?_⟩
      · rw [heq]
        exact hl
      · intro now' hv'
        rw [heq]
        have := fetchData_hit_eq oracleNext now' cfg st endpoint params e hl hv' htr
        rw [this, hd]
    · have hmiss : truthy (getCache now cfg st.cache (generateCacheKey endpoint params)).1 =
          false := by
        cases hb : truthy (getCache now cfg st.cache (generateCacheKey endpoint params)).1
        · rfl
        · exact absurd hb hhit
      have heq := fetchData_miss_eq oracle now cfg st endpoint params hmiss
      have hcache : (fetchData oracle now cfg st endpoint params true).state.cache =
          setCache now
            ({ st with cache :=
                (getCache now cfg st.cache (generateCacheKey endpoint params)).2 } : DMState).cache
            (generateCacheKey endpoint params) d := by
        rw [heq]
        refine fetchNetwork_ok_cache oracle now cfg _ _ d ?_
        rw [← heq]
        exact hres
      refine ⟨⟨d, now⟩, ?_, rfl, ?_⟩
      · rw [hcache]
        exact lookup_setEntry _ _ _
      · intro now' hv'
        have hl' : List.lookup (generateCacheKey endpoint params)
            (fetchData oracle now cfg st endpoint params true).state.cache =
              some ⟨d, now⟩ := by
          rw [hcache]
          exact lookup_setEntry _ _ _
        exact fetchData_hit_eq oracleNext now' cfg _ endpoint params ⟨d, now⟩ hl' hv' ht

/-- **C5 counterexample.** The claim as stated fails for a valid entry
whose stored data is falsy: with `false` cached fresh under the key, the
call takes the network path (the counter changes and no `cache-hit` is
emitted). -/
theorem claim_C5_cex :
    List.lookup (generateCacheKey "/x" [])
        ([("/x", ⟨JVal.vbool false, 0⟩)] : List (String × CacheEntry)) =
      some ⟨JVal.vbool false, 0⟩
    ∧ isCacheValid 0 defaultConfig ⟨JVal.vbool false, 0⟩ = true
    ∧ (fetchData (fun _ => Attempt.success (JVal.vstr "net")) 0 defaultConfig
        ⟨[("/x", ⟨JVal.vbool false, 0⟩)], 0, none, 0⟩ "/x" [] true).state.requestCount ≠ 0
    ∧ Event.cacheHit ∉
        (fetchData (fun _ => Attempt.success (JVal.vstr "net")) 0 defaultConfig
          ⟨[("/x", ⟨JVal.vbool false, 0⟩)], 0, none, 0⟩ "/x" [] true).events := by
  decide

/-- Witness for C5: a fresh truthy entry is served from cache with no
state change. -/
theorem claim_C5_witness :
    fetchData (fun _ => Attempt.success (JVal.vstr "net")) 0 defaultConfig
        ⟨[("/x", ⟨JVal.vstr "cached", 0⟩)], 3, some 1, 2⟩ "/x" [] true =
      { result := .ok (JVal.vstr "cached"),
        state := ⟨[("/x", ⟨JVal.vstr "cached", 0⟩)], 3, some 1, 2⟩,
        events := [Event.cacheHit] } :=
  (claim_C5_cacheHit (fun _ => Attempt.success (JVal.vstr "net"))
    (fun _ => Attempt.success (JVal.vstr "net")) 0 defaultConfig
    ⟨[("/x", ⟨JVal.vstr "cached", 0⟩)], 3, some 1, 2⟩ "/x" []).1
    ⟨JVal.vstr "cached", 0⟩ (by decide) (by decide) (by decide)

/-- **C6 (amended).** `searchData` returns the input unchanged for an
empty or whitespace-only query; otherwise it keeps, in order (a
sublist), exactly the items for which some listed field holds a
*truthy* value whose text contains the lowercased query
case-insensitively. -/
theorem claim_C6_searchData (data : List Item) (query : String) (fields : List String) :
    (jsTrim query = "" → searchData data query fields = data)
    ∧ (jsTrim query ≠ "" →
        (searchData data query fields).Sublist data
        ∧ ∀ item, item ∈ searchData data query fields ↔
            item ∈ data ∧ ∃ f ∈ fields, ∃ v, List.lookup f item = some v
              ∧ truthy v = true
              ∧ strIncludes (sLower (jsToString v)) (sLower query) = true) := by
  refine ⟨fun h => by simp [searchData, h], fun h => ⟨?_, ?_⟩⟩
  · simp only [searchData, if_neg h]
    exact List.filter_sublist _
  · intro item
    simp only [searchData, if_neg h, List.mem_filter]
    rw [searchMatch_iff]

/-- **C6 counterexample.** The claim as stated fails for a falsy field
value: the number `0` rendered as `"0"` contains the query `"0"`, yet
the item is dropped because `0` is falsy. -/
theorem claim_C6_cex :
    searchData [[("title", JVal.vnum 0)]] "0" ["title"] = []
    ∧ jsTrim "0" ≠ ""
    ∧ strIncludes (sLower (jsToString (JVal.vnum 0))) (sLower "0") = true := by
  decide

/-- Witness for C6: a whitespace query returns the input unchanged, and
a matching truthy field is found case-insensitively. -/
theorem claim_C6_witness :
    searchData [[("a", JVal.vnull)]] " " ["a"] = [[("a", JVal.vnull)]]
    ∧ ([("title", JVal.vstr "Hello World")] : Item) ∈
        searchData [[("title", JVal.vstr "Hello World")]] "WORLD" ["title", "body"] :=
  ⟨(claim_C6_searchData [[("a", JVal.vnull)]] " " ["a"]).1 (by decide),
    (((claim_C6_searchData [[("title", JVal.vstr "Hello World")]] "WORLD"
        ["title", "body"]).2 (by decide)).2 [("title", JVal.vstr "Hello World")]).mpr
      ⟨by decide, "title", by decide, JVal.vstr "Hello World", by decide, by decide, by decide⟩⟩

/-- **C7 (amended).** `fetchPosts(page, limit)` delegates to
`fetchData('/posts', { _start: (page-1)*limit, _limit: limit })` — the
parameter names carry the JSONPlaceholder underscore prefix — and the
computed cache key sorts `_limit` before `_start`. -/
theorem claim_C7_fetchPosts (oracle : Nat → Attempt) (now : Int) (cfg : Config)
    (st : DMState) (page limit : Int) :
    fetchPosts oracle now cfg st page limit =
      fetchData oracle now cfg st "/posts"
        [("_start", JVal.vnum ((page - 1) * limit)), ("_limit", JVal.vnum limit)] true
    ∧ List.lookup "_start" (fetchPostsParams page limit) =
        some (JVal.vnum ((page - 1) * limit))
    ∧ List.lookup "_limit" (fetchPostsParams page limit) = some (JVal.vnum limit)
    ∧ (fetchPostsParams page limit).map Prod.fst = ["_start", "_limit"]
    ∧ generateCacheKey "/posts" (fetchPostsParams page limit) =
        "/posts" ++ "?" ++ "_limit" ++ "=" ++ jsToString (JVal.vnum limit) ++ "&" ++
          "_start" ++ "=" ++ jsToString (JVal.vnum ((page - 1) * limit)) := by
  refine ⟨rfl, rfl, rfl, rfl, ?_⟩
  have hsort : List.insertionSort keyLE ["_start", "_limit"] = ["_limit", "_start"] := by
    decide
  have h3 : (fetchPostsParams page limit).map Prod.fst = ["_start", "_limit"] := rfl
  have h1 : lookupD (fetchPostsParams page limit) "_limit" = JVal.vnum limit := rfl
  have h2 : lookupD (fetchPostsParams page limit) "_start" =
      JVal.vnum ((page - 1) * limit) := rfl
  simp only [generateCacheKey, h3, hsort, List.map_cons, List.map_nil, h1, h2]
  rw [if_neg (joinAmp_pairs_ne_empty "_limit" (jsToString (JVal.vnum limit)) _)]
  simp only [joinAmp, String.append_assoc]

/-- **C7 counterexample.** The claim as stated (parameters named `start`
and `limit`) does not hold: `fetchPosts` passes no such parameters, and
delegating with those names is observably different (the cache keys
differ). -/
theorem claim_C7_cex :
    List.lookup "start" (fetchPostsParams 1 10) = none
    ∧ List.lookup "limit" (fetchPostsParams 1 10) = none
    ∧ fetchPosts (fun _ => Attempt.success (JVal.vstr "d")) 0 defaultConfig
        ⟨[], 0, none, 0⟩ 1 10 ≠
      fetchData (fun _ => Attempt.success (JVal.vstr "d")) 0 defaultConfig
        ⟨[], 0, none, 0⟩ "/posts" [("start", JVal.vnum 0), ("limit", JVal.vnum 10)] true := by
  decide

/-- **C8 (amended).** `getStats()` returns a snapshot object with
exactly the fields `cacheSize` (number of cache entries),
`requestCount` (the counter) and `cachedItems` (the array of keys in
the cache map); there is no field named `cachedKeys`. -/
theorem claim_C8_getStats (st : DMState) :
    (getStats st).map Prod.fst = ["cacheSize", "requestCount", "cachedItems"]
    ∧ List.lookup "cacheSize" (getStats st) = some (StatVal.num st.cache.length)
    ∧ List.lookup "requestCount" (getStats st) = some (StatVal.num st.requestCount)
    ∧ List.lookup "cachedItems" (getStats st) =
        some (StatVal.strList (st.cache.map Prod.fst))
    ∧ List.lookup "cachedKeys" (getStats st) = none :=
  ⟨rfl, rfl, rfl, rfl, rfl⟩

/-- **C8 counterexample.** The claim as stated names the key list field
`cachedKeys`; the snapshot has no such field — the keys are under
`cachedItems`. -/
theorem claim_C8_cex :
    List.lookup "cachedKeys"
        (getStats ⟨[("/posts", ⟨JVal.vstr "d", 0⟩)], 2, none, 0⟩) = none
    ∧ List.lookup "cachedItems"
        (getStats ⟨[("/posts", ⟨JVal.vstr "d", 0⟩)], 2, none, 0⟩) =
      some (StatVal.strList ["/posts"]) := by
  decide

/-- **C9.** A fresh cache entry holding a falsy value is returned by
`getCache` but does not produce a `cache-hit`: `fetchData` proceeds to
the network path and behaves (result, events, request counter) exactly
as it would with no entry under the key at all. -/
theorem claim_C9_falsyCache (oracle : Nat → Attempt) (now : Int) (cfg : Config)
    (st : DMState) (endpoint : String) (params : List (String × JVal)) (e : CacheEntry)
    (hl : List.lookup (generateCacheKey endpoint params) st.cache = some e)
    (hv : isCacheValid now cfg e = true) (hf : truthy e.data = false) :
    getCache now cfg st.cache (generateCacheKey endpoint params) = (e.data, st.cache)
    ∧ Event.cacheHit ∉ (fetchData oracle now cfg st endpoint params true).events
    ∧ (fetchData oracle now cfg st endpoint params true).result =
        (fetchData oracle now cfg
          { st with cache := eraseKey (generateCacheKey endpoint params) st.cache }
          endpoint params true).result
    ∧ (fetchData oracle now cfg st endpoint params true).events =
        (fetchData oracle now cfg
          { st with cache := eraseKey (generateCacheKey endpoint params) st.cache }
          endpoint params true).events
    ∧ (fetchData oracle now cfg st endpoint params true).state.requestCount =
        (fetchData oracle now cfg
          { st with cache := eraseKey (generateCacheKey endpoint params) st.cache }
          endpoint params true).state.requestCount := by
  have hget : getCache now cfg st.cache (generateCacheKey endpoint params) =
      (e.data, st.cache) := by
    simp [getCache, hl, hv]
  have hmiss : truthy (getCache now cfg st.cache (generateCacheKey endpoint params)).1 =
      false := by
    rw [hget]
    exact hf
  have h1 : fetchData oracle now cfg st endpoint params true =
      fetchNetwork oracle now cfg st (generateCacheKey endpoint params) true := by
    rw [fetchData_miss_eq oracle now cfg st endpoint params hmiss, hget]
  set stE : DMState :=
    { st with cache := eraseKey (generateCacheKey endpoint params) st.cache } with hstE
  have hlE : List.lookup (generateCacheKey endpoint params) stE.cache = none :=
    lookup_eraseKey _ _
  have hmissE : truthy (getCache now cfg stE.cache (generateCacheKey endpoint params)).1 =
      false := by
    simp [getCache, hlE, truthy]
  have h2 : fetchData oracle now cfg stE endpoint params true =
      fetchNetwork oracle now cfg stE (generateCacheKey endpoint params) true := by
    rw [fetchData_miss_eq oracle now cfg stE endpoint params hmissE]
    simp [getCache, hlE]
  have hcongr := fetchNetwork_congr oracle now cfg st stE
    (generateCacheKey endpoint params) true rfl rfl rfl
  obtain ⟨rest, hev, _, _, hnohit⟩ :=
    fetchNetwork_events oracle now cfg st (generateCacheKey endpoint params) true
  refine ⟨hget, ?_, ?_, ?_, ?_⟩
  · rw [h1, hev]
    intro hmem
    rcases List.mem_append.mp hmem with hmem | hmem
    · exact cacheHit_not_mem_cancel st hmem
    · exact hnohit hmem
  · rw [h1, h2]
    exact hcongr.1
  · rw [h1, h2]
    exact hcongr.2.1
  · rw [h1, h2]
    exact hcongr.2.2

/-- Witness for C9: a fresh entry holding the falsy number `0` is
skipped — no `cache-hit` is emitted and the call behaves like an
uncached one. -/
theorem claim_C9_witness :
    Event.cacheHit ∉
      (fetchData (fun _ => Attempt.success (JVal.vstr "net")) 0 defaultConfig
        ⟨[("/x", ⟨JVal.vnum 0, 0⟩)], 0, none, 0⟩ "/x" [] true).events :=
  (claim_C9_falsyCache (fun _ => Attempt.success (JVal.vstr "net")) 0 defaultConfig
    ⟨[("/x", ⟨JVal.vnum 0, 0⟩)], 0, none, 0⟩ "/x" [] ⟨JVal.vnum 0, 0⟩
    (by decide) (by decide) (by decide)).2.1

/-- **C10.** A `fetchData` call served from cache aborts nothing and
leaves the abort-controller field unchanged; on the cache-miss path the
pending controller (when present) is aborted first — before any network
attempt — and a fresh controller is installed. -/
theorem claim_C10_abort_discipline (oracle : Nat → Attempt) (now : Int) (cfg : Config)
    (st : DMState) (endpoint : String) (params : List (String × JVal)) :
    (∀ e, List.lookup (generateCacheKey endpoint params) st.cache = some e →
        isCacheValid now cfg e = true → truthy e.data = true →
      (fetchData oracle now cfg st endpoint params true).state.abortController =
          st.abortController
      ∧ ∀ id, Event.abortCalled id ∉ (fetchData oracle now cfg st endpoint params true).events)
    ∧ ((∀ e, List.lookup (generateCacheKey endpoint params) st.cache = some e →
          isCacheValid now cfg e = true → truthy e.data = false) →
      (fetchData oracle now cfg st endpoint params true).state.abortController =
          some st.nextControllerId
      ∧ ∃ rest, (fetchData oracle now cfg st endpoint params true).events =
            cancelPendingRequests st ++ rest
          ∧ rest.head? = some Event.requestStarted
          ∧ ∀ id, Event.abortCalled id ∉ rest) := by
  constructor
  · intro e hl hv ht
    have heq := fetchData_hit_eq oracle now cfg st endpoint params e hl hv ht
    rw [heq]
    exact ⟨rfl, by simp⟩
  · intro hfalsy
    have hmiss : truthy (getCache now cfg st.cache (generateCacheKey endpoint params)).1 =
        false :=
      getCache_not_truthy now cfg st.cache _ hfalsy
    have heq := fetchData_miss_eq oracle now cfg st endpoint params hmiss
    set st1 : DMState :=
      { st with cache := (getCache now cfg st.cache (generateCacheKey endpoint params)).2 }
      with hst1
    constructor
    · rw [heq]
      exact fetchNetwork_state_abort oracle now cfg st1 _ true
    · obtain ⟨rest, hev, hhd, hnoabort, _⟩ :=
        fetchNetwork_events oracle now cfg st1 (generateCacheKey endpoint params) true
      refine ⟨rest, ?_, hhd, hnoabort⟩
      rw [heq, hev]
      rfl

/-- Witness for C10: a cache miss with a pending controller (id 9)
aborts it before the network attempt and installs controller 10; the
served-from-cache side is witnessed by `claim_C5_witness`-style inputs
through the same theorem. -/
theorem claim_C10_witness :
    ((fetchData (fun _ => Attempt.success (JVal.vstr "d")) 0 defaultConfig
        ⟨[], 5, some 9, 10⟩ "/x" [] true).state.abortController = some 10
      ∧ ∃ rest, (fetchData (fun _ => Attempt.success (JVal.vstr "d")) 0 defaultConfig
            ⟨[], 5, some 9, 10⟩ "/x" [] true).events =
          cancelPendingRequests ⟨[], 5, some 9, 10⟩ ++ rest
        ∧ rest.head? = some Event.requestStarted
        ∧ ∀ id, Event.abortCalled id ∉ rest)
    ∧ ((fetchData (fun _ => Attempt.success (JVal.vstr "d")) 0 defaultConfig
        ⟨[("/y", ⟨JVal.vstr "c", 0⟩)], 5, some 9, 10⟩ "/y" [] true).state.abortController =
          some 9
      ∧ ∀ id, Event.abortCalled id ∉
          (fetchData (fun _ => Attempt.success (JVal.vstr "d")) 0 defaultConfig
            ⟨[("/y", ⟨JVal.vstr "c", 0⟩)], 5, some 9, 10⟩ "/y" [] true).events) :=
  ⟨(claim_C10_abort_discipline (fun _ => Attempt.success (JVal.vstr "d")) 0 defaultConfig
      ⟨[], 5, some 9, 10⟩ "/x" []).2 (fun e he => nomatch he),
    (claim_C10_abort_discipline (fun _ => Attempt.success (JVal.vstr "d")) 0 defaultConfig
      ⟨[("/y", ⟨JVal.vstr "c", 0⟩)], 5, some 9, 10⟩ "/y" []).1 ⟨JVal.vstr "c", 0⟩
      (by decide) (by decide) (by decide)⟩

end DataManager
